import Mathlib

/-!
Verification development for the sonic-stitcher-pro audio mixing engine.

The TypeScript source is shallowly embedded over exact rational arithmetic:
JavaScript numbers whose uses in the relevant paths are exact (integer and
small decimal arithmetic) are modelled as rationals, and the transcendental
library functions the analyzer calls (Math.cos, Math.sin, Math.sqrt,
Math.log2, and the constant Math.PI) are abstracted as explicit parameters
(`MathFns`), since no settled property depends on their values.  Theorems
quantify over every instantiation of these parameters, so they in particular
cover the actual library functions.  Where a property genuinely needs the
real cos / sin / tanh (crossfade gain laws, the soft-clip bound), the
corresponding definitions are parametric in the transcendental functions and
the theorems instantiate them with `Real.cos` / `Real.sin` / `Real.tanh`.

Effect parameters that the source explicitly tests with `isFinite` are
modelled by `JSQ`, a four-point extension of the rationals with `inf`,
`ninf` and `nan` mirroring IEEE special values as JavaScript exposes them
through comparisons, `Math.floor`, `*`, `/` and `%` on the paths embedded
here.  A source loop whose trip count is `Infinity` (hence never terminates)
is modelled by an `Option` result that is `none` in exactly that case.
-/

set_option linter.unusedVariables false

/-! ## JavaScript numeric helpers -/

/-- JavaScript `Math.round` on an exact rational: round half toward positive
infinity. -/
def jsRound (q : ℚ) : ℤ := ⌊q + 1/2⌋

/-- Truncation toward zero, as used by the ToInt16 / ToUint32 conversions of
`DataView.setInt16` / `setUint32`. -/
def jsTrunc (q : ℚ) : ℤ := if 0 ≤ q then ⌊q⌋ else -⌊-q⌋

/-- JavaScript `%` (remainder with the sign of the dividend) on exact
rationals. -/
def jsRem (a b : ℚ) : ℚ := a - b * jsTrunc (a / b)

/-- `Array.prototype.slice(start, start+len)` on a list: drop `start`, take at
most `len` (clamping at the end of the array, as slice does). -/
def jsSlice (l : List ℚ) (start len : ℕ) : List ℚ := (l.drop start).take len

/-- `Math.max(...l)` over a nonempty spread; the source only applies it to the
12-entry chromagram.  The empty case (unreachable there) yields 0. -/
def jsListMax : List ℚ → ℚ
  | [] => 0
  | h :: t => t.foldl max h

/-- The transcendental `Math.*` functions the analyzer calls, abstracted as
parameters of the embedding (see the file header). -/
structure MathFns where
  cos : ℚ → ℚ
  sin : ℚ → ℚ
  sqrt : ℚ → ℚ
  log2 : ℚ → ℚ
  pi : ℚ

/-- A decoded PCM buffer: `sample_rate` plus per-channel sample lists
(`AudioBuffer` in the source).  Generic in the sample type so that the
mastering stage can be instantiated at `ℝ`. -/
structure JSBuffer (α : Type) where
  sampleRate : α
  channels : List (List α)
deriving DecidableEq

/-- `buffer.getChannelData(0)`; an absent channel reads as the empty array
(the source catches the resulting exception and falls back). -/
def JSBuffer.chan0 {α} (b : JSBuffer α) : List α := b.channels.headD []

/-- `buffer.length` (frames): the length of channel 0. -/
def JSBuffer.frames {α} (b : JSBuffer α) : ℕ := b.chan0.length

/-! ## Track analyzer (src/lib/audioAnalysis.ts) -/

/-- `AnalysisSummary` from audioAnalysis.ts. -/
structure AnalysisSummary where
  bpm : ℚ
  bpmAlt : ℚ
  bpmConfidence : ℚ
  camelot : String
  keySemitone : ℕ
  keyConfidence : ℚ
  beatTimes : List ℚ
  downbeatIndices : List ℕ
  phraseSpans : List (ℕ × ℕ)
  energyCurve : List ℚ
  vocalLikelihood : List ℚ
  kickTimes : List ℚ
deriving DecidableEq

/-- The `KEY_TO_CAMELOT` table (entries 0..23 of the source object, in index
order). -/
def KEY_TO_CAMELOT : List String :=
  ["8B", "3B", "10B", "5B", "12B", "7B",
   "2B", "9B", "4B", "11B", "6B", "1B",
   "5A", "12A", "7A", "2A", "9A", "4A",
   "11A", "6A", "1A", "8A", "3A", "10A"]

/-- `KEY_TO_CAMELOT[key] || '1A'`: a missing entry yields the fallback; every
present entry is a nonempty (hence truthy) string. -/
def keyToCamelot (k : ℕ) : String := KEY_TO_CAMELOT[k]?.getD "1A"

/-- The hop start indices of a loop `for (i = 0; i < len - win; i += hop)`;
when `len ≤ win` (the JS bound is then non-positive) there are no
iterations, which Nat subtraction models directly. -/
def hopStarts (len win hop : ℕ) : List ℕ :=
  (List.range ((len - win + (hop - 1)) / hop)).map (· * hop)

/-- The magnitude-only naive DFT `fft` of audioAnalysis.ts.  Only bins
`k < n/2` are filled; the rest of the returned array stays zero.  The inner
`isFinite(data[i])` guard never skips (samples are exact). -/
def fft (M : MathFns) (data : List ℚ) : List ℚ :=
  if data = [] then List.replicate 1024 0
  else
    let n := data.length
    (List.range n).map fun k =>
      if 2 * k < n then
        let re := (List.range n).foldl
          (fun acc i => acc + data.getD i 0 * M.cos (2 * M.pi * k * i / n)) 0
        let im := (List.range n).foldl
          (fun acc i => acc - data.getD i 0 * M.sin (2 * M.pi * k * i / n)) 0
        M.sqrt (re * re + im * im)
      else 0

/-- `isLocalPeak(data, index, range)`: no in-range neighbour other than
`index` itself reaches `data[index]`. -/
def isLocalPeak (data : List ℚ) (index range : ℕ) : Bool :=
  (List.range (2 * range + 1)).all fun k =>
    let i : ℤ := (index : ℤ) - range + k
    i = index ∨ i < 0 ∨ (data.length : ℤ) ≤ i ∨
      decide (data.getD i.toNat 0 < data.getD index 0)

/-- Spectral flux between two consecutive magnitude spectra:
`Σ max(0, cur[j] − prev[j])²` over the common prefix. -/
def spectralFluxAt (cur prev : List ℚ) : ℚ :=
  (List.range (min cur.length prev.length)).foldl
    (fun acc j => acc + max 0 (cur.getD j 0 - prev.getD j 0) ^ 2) 0

/-- `detectBeats` of audioAnalysis.ts: spectral flux at hop 512 over
2048-sample windows, then adaptive-threshold peak picking. -/
def detectBeats (M : MathFns) (data : List ℚ) (sampleRate : ℚ) : List ℚ :=
  if data.length < 2048 ∨ sampleRate ≤ 0 then [0, 1/2, 1, 3/2]
  else
    let spectra := (hopStarts data.length 2048 512).map
      fun i => fft M (jsSlice data i 2048)
    let spectralFlux := (spectra.tail.zip spectra).filterMap fun p =>
      let f := spectralFluxAt p.1 p.2
      if 0 < f then some (M.sqrt f) else none
    if spectralFlux.length < 2 then [0, 1/2, 1, 3/2]
    else
      let windowLen : ℕ := max 1 ⌊sampleRate / 512⌋.toNat
      let beats := (List.range' windowLen (spectralFlux.length - 2 * windowLen)).filterMap
        fun i =>
          let window := jsSlice spectralFlux (i - windowLen) (2 * windowLen)
          if window = [] then none
          else
            let mean := window.sum / window.length
            if mean ≤ 0 then none
            else if spectralFlux.getD i 0 > mean * (3/2) ∧ isLocalPeak spectralFlux i 3 then
              let t := i * 512 / sampleRate
              if 0 ≤ t then some t else none
            else none
      if beats = [] then [0, 1/2, 1, 3/2] else beats

/-- Result record of `calculateBPM`. -/
structure BPMResult where
  bpm : ℚ
  bpmAlt : ℚ
  confidence : ℚ
deriving DecidableEq

/-- `calculateBPM` of audioAnalysis.ts.  The histogram keyed by integer BPM is
modelled by counting; JavaScript enumerates integer object keys in ascending
order and the stable descending-count sort therefore picks, among maximal
counts, the smallest BPM — hence the first-strict-maximum fold below.  The
`sampleRate` parameter is unused, as in the source. -/
def calculateBPM (beats : List ℚ) (sampleRate : ℚ) : BPMResult :=
  if beats.length < 2 then ⟨120, 60, 0⟩
  else
    let intervals := ((beats.tail.zip beats).map fun p => p.1 - p.2).filter (0 < ·)
    if intervals = [] then ⟨120, 60, 0⟩
    else
      let vals := (intervals.map fun Δ => jsRound (60 / Δ)).filter
        fun b => 0 < b ∧ b < 300
      let support := ((List.range' 1 299).map (Int.ofNat)).filter (0 < vals.count ·)
      if support = [] then ⟨120, 60, 0⟩
      else
        let dominant := support.foldl
          (fun best k => if vals.count best < vals.count k then k else best)
          (support.headD 0)
        let mainBPM : ℤ := max 60 (min 200 dominant)
        let confidence := min 1 (max 0 ((vals.count dominant : ℚ) / intervals.length))
        ⟨(mainBPM : ℚ),
         if 100 < mainBPM then (jsRound ((mainBPM : ℚ) / 2) : ℚ) else ((mainBPM : ℚ) * 2),
         confidence⟩

/-- One step of the `detectDownbeats` walk (state: current bar, accumulated
downbeat indices). -/
def downbeatStep (beats : List ℚ) (beatInterval bars : ℚ) (st : ℤ × List ℕ) (i : ℕ) :
    ℤ × List ℕ :=
  let t := beats.getD i 0
  let expected := st.1 * bars
  if |t - expected| < beatInterval * (1/2) then (st.1 + 1, st.2 ++ [i])
  else if t > expected + beatInterval then (⌊t / bars⌋, st.2 ++ [i])
  else st

/-- `detectDownbeats` of audioAnalysis.ts. -/
def detectDownbeats (beats : List ℚ) (bpm : ℚ) : List ℕ :=
  if beats.length < 4 ∨ bpm ≤ 0 then [0, 4, 8, 12]
  else
    let beatInterval := 60 / bpm
    if beatInterval ≤ 0 then [0, 4, 8, 12]
    else
      let bars := beatInterval * 4
      let downbeats :=
        ((List.range' 1 (beats.length - 1)).foldl (downbeatStep beats beatInterval bars)
          (0, [0])).2
      if downbeats = [] then [0, 4, 8, 12] else downbeats

/-- `detectPhrases`: every run of four downbeats becomes a `(downbeat, 16)`
span; the `beats` parameter is unused, as in the source. -/
def detectPhrases (beats : List ℚ) (downbeats : List ℕ) : List (ℕ × ℕ) :=
  (List.range (downbeats.length / 4)).map fun k => (downbeats.getD (4 * k) 0, 16)

/-- Result record of `detectKey`. -/
structure KeyResult where
  key : ℕ
  confidence : ℚ
deriving DecidableEq

/-- Chromagram accumulation for one 4096-sample hop: each DFT bin between 80
and 5000 Hz adds its magnitude to its pitch class.  `%` is the JavaScript
truncated remainder (`Int.tmod`). -/
def chromaAccum (sampleRate : ℚ) (M : MathFns) (chrom : List ℚ) (spectrum : List ℚ) :
    List ℚ :=
  (List.range (spectrum.length / 2)).foldl
    (fun c (j : ℕ) =>
      let freq := (j : ℚ) * sampleRate / 4096
      if freq < 80 ∨ freq > 5000 then c
      else
        let pitchClass := Int.tmod (jsRound (12 * M.log2 (freq / 440))) 12
        let npc := Int.tmod (pitchClass + 12) 12
        if 0 ≤ npc ∧ npc < 12 then c.set npc.toNat (c.getD npc.toNat 0 + spectrum.getD j 0)
        else c)
    chrom

/-- `detectKey` of audioAnalysis.ts: a 12-bin chromagram over 4096-sample
hops; the dominant bin index is the key. -/
def detectKey (M : MathFns) (buffer : JSBuffer ℚ) : KeyResult :=
  if buffer.frames = 0 ∨ buffer.chan0 = [] ∨ buffer.sampleRate ≤ 0 then ⟨0, 0⟩
  else
    let data := buffer.chan0
    let chromagram := (hopStarts data.length 4096 4096).foldl
      (fun c i => chromaAccum buffer.sampleRate M c (fft M (jsSlice data i 4096)))
      (List.replicate 12 0)
    let maxVal := jsListMax chromagram
    if maxVal = 0 then ⟨0, 0⟩
    else
      let maxIdx := chromagram.indexOf maxVal
      let total := chromagram.sum
      ⟨maxIdx, if 0 < total then min 1 (max 0 (chromagram.getD maxIdx 0 / total)) else 0⟩

/-- `analyzeEnergy`: 20 ms RMS windows followed by a ±5-window mean. -/
def analyzeEnergy (M : MathFns) (data : List ℚ) (sampleRate : ℚ) : List ℚ :=
  if data = [] ∨ sampleRate ≤ 0 then [1/2]
  else
    let windowSize : ℕ := max 1 ⌊sampleRate * (2/100)⌋.toNat
    let energy := (List.range ((data.length + windowSize - 1) / windowSize)).map fun b =>
      let window := jsSlice data (b * windowSize) windowSize
      M.sqrt ((window.map fun v => v * v).sum / window.length)
    if energy = [] then [1/2]
    else
      (List.range energy.length).map fun i =>
        let idxs := (List.range 11).filterMap fun k =>
          let j : ℤ := (i : ℤ) - 5 + k
          if 0 ≤ j ∧ j < (energy.length : ℤ) then some j.toNat else none
        if 0 < idxs.length then (idxs.map fun j => energy.getD j 0).sum / idxs.length else 0

/-- `estimateVocalPresence`: per 4096-sample hop, the 2–5 kHz emphasis ratio
clamped to [0, 1]. -/
def estimateVocalPresence (M : MathFns) (buffer : JSBuffer ℚ) : List ℚ :=
  if buffer.frames = 0 ∨ buffer.chan0 = [] ∨ buffer.sampleRate ≤ 0 then [3/10]
  else
    let data := buffer.chan0
    let probs := (hopStarts data.length 4096 4096).map fun i =>
      let spectrum := fft M (jsSlice data i 4096)
      let step := (List.range (spectrum.length / 2)).foldl
        (fun (acc : ℚ × ℚ) (j : ℕ) =>
          let freq := (j : ℚ) * buffer.sampleRate / 4096
          let e := spectrum.getD j 0
          (acc.1 + (if 2000 ≤ freq ∧ freq ≤ 5000 then e * 2 else 0), acc.2 + e))
        (0, 0)
      if 0 < step.2 then min 1 (max 0 (step.1 / step.2)) else 0
    if probs = [] then [3/10] else probs

/-- The inner 512-sample scan of `detectKicks` for one beat: state is
`(maxEnergy, kickSample)`. -/
def kickScan (M : MathFns) (data : List ℚ) (searchStart searchEnd : ℕ) (init : ℤ) : ℤ :=
  ((hopStarts (searchEnd - searchStart + 512) 512 512).map (· + searchStart)).foldl
    (fun (st : ℚ × ℤ) i =>
      let spectrum := fft M (jsSlice data i 512)
      let lowEnergy := (List.range (min 20 spectrum.length)).foldl
        (fun acc j => acc + spectrum.getD j 0) 0
      if st.1 < lowEnergy then (lowEnergy, (i : ℤ)) else st)
    ((0 : ℚ), init) |>.2

/-- `detectKicks` of audioAnalysis.ts. -/
def detectKicks (M : MathFns) (data : List ℚ) (sampleRate : ℚ) (beats : List ℚ) :
    List ℚ :=
  if data = [] ∨ sampleRate ≤ 0 ∨ beats = [] then [0, 1/2, 1, 3/2]
  else
    let windowSize : ℕ := max 1 ⌊sampleRate * (5/100)⌋.toNat
    let kicks := beats.filterMap fun beatTime =>
      if beatTime < 0 then none
      else
        let beatSample := ⌊beatTime * sampleRate⌋
        let searchStart := (max 0 (beatSample - windowSize)).toNat
        let searchEnd := (min (data.length : ℤ) (beatSample + windowSize)).toNat
        if searchEnd ≤ searchStart then some beatTime
        else
          let kickSample := kickScan M data searchStart searchEnd beatSample
          let kickTime := (kickSample : ℚ) / sampleRate
          if 0 ≤ kickTime then some kickTime else none
    if kicks = [] then [0, 1/2, 1, 3/2] else kicks

/-- The fallback summary returned by the `catch` arm of `analyzeTrack`. -/
def fallbackSummary : AnalysisSummary where
  bpm := 120
  bpmAlt := 60
  bpmConfidence := 0
  camelot := "1A"
  keySemitone := 0
  keyConfidence := 0
  beatTimes := [0, 1/2, 1, 3/2]
  downbeatIndices := [0, 4, 8, 12]
  phraseSpans := [(0, 16)]
  energyCurve := [1/2]
  vocalLikelihood := [3/10]
  kickTimes := [0, 1/2, 1, 3/2]

/-- `analyzeTrack` of audioAnalysis.ts.  The initial validation throws are the
only escaping exceptions; the `catch` turns them into `fallbackSummary`, so
the function is total. -/
def analyzeTrack (M : MathFns) (buffer : JSBuffer ℚ) : AnalysisSummary :=
  if buffer.frames = 0 ∨ buffer.sampleRate ≤ 0 ∨ buffer.chan0 = [] then fallbackSummary
  else
    let data := buffer.chan0
    let sr := buffer.sampleRate
    let beats := detectBeats M data sr
    let bpmData := calculateBPM beats sr
    let downbeats := detectDownbeats beats bpmData.bpm
    let phrases := detectPhrases beats downbeats
    let keyData := detectKey M buffer
    let energy := analyzeEnergy M data sr
    let vocalProb := estimateVocalPresence M buffer
    let kicks := detectKicks M data sr beats
    { bpm := bpmData.bpm
      bpmAlt := bpmData.bpmAlt
      bpmConfidence := bpmData.confidence
      camelot := keyToCamelot keyData.key
      keySemitone := keyData.key % 12
      keyConfidence := keyData.confidence
      beatTimes := beats
      downbeatIndices := downbeats
      phraseSpans := phrases
      energyCurve := energy
      vocalLikelihood := vocalProb
      kickTimes := kicks }

/-! ## Transition planner (src/lib/transitionEngine.ts) -/

inductive TransitionStyle
  | hard_downbeat
  | eq_morph
  | bass_swap
  | vocal_aware
  | stutter_entry
deriving DecidableEq

inductive MixMode
  | festival
  | club_smooth
  | neutral
deriving DecidableEq

inductive FxType
  | sweep
  | reverseVerb
  | tapeStop
  | stutter
deriving DecidableEq

/-- The `params: Record<string, number>` maps of the planner, which only ever
carry these three keys; an absent key is `none`. -/
structure FxParams where
  duration : Option ℚ := none
  division : Option ℚ := none
  bars : Option ℚ := none
deriving DecidableEq

structure FxItem where
  type : FxType
  atBeat : ℚ
  params : FxParams
deriving DecidableEq

inductive TrackId
  | A
  | B
deriving DecidableEq

structure TempoOp where
  track : TrackId
  stretchPct : ℚ
deriving DecidableEq

structure PitchOp where
  track : TrackId
  semitones : ℚ
  formantPreserve : Bool
deriving DecidableEq

/-- `TransitionPlan` of transitionEngine.ts. -/
structure TransitionPlan where
  style : TransitionStyle
  startBarA : ℚ
  startBarB : ℚ
  lengthBars : ℚ
  tempoOps : List TempoOp
  pitchOps : List PitchOp
  fx : List FxItem
deriving DecidableEq

/-- The `CAMELOT_WHEEL` neighbour table. -/
def CAMELOT_WHEEL : List (String × List String) :=
  [("1A", ["1A", "12A", "2A", "1B"]),
   ("2A", ["2A", "1A", "3A", "2B"]),
   ("3A", ["3A", "2A", "4A", "3B"]),
   ("4A", ["4A", "3A", "5A", "4B"]),
   ("5A", ["5A", "4A", "6A", "5B"]),
   ("6A", ["6A", "5A", "7A", "6B"]),
   ("7A", ["7A", "6A", "8A", "7B"]),
   ("8A", ["8A", "7A", "9A", "8B"]),
   ("9A", ["9A", "8A", "10A", "9B"]),
   ("10A", ["10A", "9A", "11A", "10B"]),
   ("11A", ["11A", "10A", "12A", "11B"]),
   ("12A", ["12A", "11A", "1A", "12B"]),
   ("1B", ["1B", "12B", "2B", "1A"]),
   ("2B", ["2B", "1B", "3B", "2A"]),
   ("3B", ["3B", "2B", "4B", "3A"]),
   ("4B", ["4B", "3B", "5B", "4A"]),
   ("5B", ["5B", "4B", "6B", "5A"]),
   ("6B", ["6B", "5B", "7B", "6A"]),
   ("7B", ["7B", "6B", "8B", "7A"]),
   ("8B", ["8B", "7B", "9B", "8A"]),
   ("9B", ["9B", "8B", "10B", "9A"]),
   ("10B", ["10B", "9B", "11B", "10A"]),
   ("11B", ["11B", "10B", "12B", "11A"]),
   ("12B", ["12B", "11B", "1B", "12A"])]

/-- `areKeysCompatible`: membership of B in the neighbour set of A (empty set
for an unknown code). -/
def areKeysCompatible (keyA keyB : String) : Bool :=
  ((CAMELOT_WHEEL.lookup keyA).getD []).contains keyB

/-- `parseInt` on a Camelot code: its leading decimal digits, `none` when
there are none (JavaScript then yields NaN, which every subsequent comparison
rejects). -/
def jsParseIntLeading (s : String) : Option ℤ :=
  (s.takeWhile Char.isDigit).toNat?.map Int.ofNat

/-- `calculateKeyShift`: wheel-number difference wrapped into [-6, 6];
`none` models the NaN produced by `parseInt` on a digitless code. -/
def calculateKeyShift (keyA keyB : String) : Option ℤ :=
  match jsParseIntLeading keyA, jsParseIntLeading keyB with
  | some a, some b =>
    let shift := b - a
    some (if 6 < shift then shift - 12 else if shift < -6 then shift + 12 else shift)
  | _, _ => none

/-- `tempoDelta` as computed at the top of `createTransitionPlan`. -/
def tempoDelta (A B : AnalysisSummary) : ℚ := |A.bpm - B.bpm| / A.bpm

/-- Mean vocal likelihood of a summary (`reduce(...)/length`). -/
def avgVocal (a : AnalysisSummary) : ℚ := a.vocalLikelihood.sum / a.vocalLikelihood.length

/-- `bothVocal` of `createTransitionPlan`. -/
def bothVocal (A B : AnalysisSummary) : Prop := avgVocal A > 3/10 ∧ avgVocal B > 3/10

instance (A B : AnalysisSummary) : Decidable (bothVocal A B) := by
  unfold bothVocal; infer_instance

/-- `totalBarsA` of `createTransitionPlan` (also the planner notion of the
number of bars in a track). -/
def totalBars (a : AnalysisSummary) : ℕ := max 1 (a.downbeatIndices.length / 4)

/-- `createTransitionPlan` of transitionEngine.ts. -/
def createTransitionPlan (A B : AnalysisSummary) (mode : MixMode) : TransitionPlan :=
  let delta := tempoDelta A B
  let keysCompatible := areKeysCompatible A.camelot B.camelot
  let energyA := (A.energyCurve.getLast?).getD 0
  let energyB := (B.energyCurve.head?).getD 0
  let energyMismatch := |energyA - energyB| > 3/10
  let selected : TransitionStyle × ℚ × List FxItem :=
    if bothVocal A B then (.vocal_aware, 4, [])
    else if ¬keysCompatible ∧ delta > 6/100 then
      (.hard_downbeat, 4, [⟨.sweep, -2, { duration := some 1 }⟩])
    else if keysCompatible ∧ delta < 2/100 then
      (.eq_morph, if mode = .club_smooth then 16 else 8, [])
    else if delta < 6/100 then (.bass_swap, 8, [])
    else
      (if mode = .festival then .stutter_entry else .hard_downbeat, 4,
       if mode = .festival then [⟨.stutter, -4, { division := some 8, bars := some 1 }⟩]
       else [])
  let fx := selected.2.2 ++
    (if energyMismatch ∧ energyA < energyB ∧ mode = .festival then
      [⟨.reverseVerb, -4, { duration := some 2 }⟩]
     else [])
  let tempoOps : List TempoOp :=
    if delta > 2/100 ∧ delta ≤ 6/100 then
      let targetBPM := (A.bpm + B.bpm) / 2
      [⟨.A, (targetBPM - A.bpm) / A.bpm * 100⟩, ⟨.B, (targetBPM - B.bpm) / B.bpm * 100⟩]
    else []
  let pitchOps : List PitchOp :=
    if ¬keysCompatible then
      match calculateKeyShift A.camelot B.camelot with
      | some shift => if |shift| ≤ 1 then [⟨.B, (shift : ℚ), true⟩] else []
      | none => []
    else []
  { style := selected.1
    startBarA := (max 0 ⌊(totalBars A : ℚ) * (3/4)⌋ : ℤ)
    startBarB := 0
    lengthBars := selected.2.1
    tempoOps := tempoOps
    pitchOps := pitchOps
    fx := fx }

/-! ## Renderer plan handling (audioProcessor.ts, mergeAudioFiles) -/

/-- `Partial<TransitionPlan>`: the optional `manualOverride` argument of
`mergeAudioFiles`; a present field replaces the computed one
(`{ ...plan, ...manualOverride }`). -/
structure PlanOverride where
  style : Option TransitionStyle := none
  startBarA : Option ℚ := none
  startBarB : Option ℚ := none
  lengthBars : Option ℚ := none
  tempoOps : Option (List TempoOp) := none
  pitchOps : Option (List PitchOp) := none
  fx : Option (List FxItem) := none

/-- Field-wise application of a partial override, as the object spread does. -/
def applyOverride (p : TransitionPlan) (o : PlanOverride) : TransitionPlan where
  style := o.style.getD p.style
  startBarA := o.startBarA.getD p.startBarA
  startBarB := o.startBarB.getD p.startBarB
  lengthBars := o.lengthBars.getD p.lengthBars
  tempoOps := o.tempoOps.getD p.tempoOps
  pitchOps := o.pitchOps.getD p.pitchOps
  fx := o.fx.getD p.fx

/-- The plan validation of `mergeAudioFiles` (`if (plan.startBarA < 0)
plan.startBarA = 0`): the only clamp applied to `startBarA`. -/
def validatePlan (p : TransitionPlan) : TransitionPlan :=
  if p.startBarA < 0 then { p with startBarA := 0 } else p

/-- The plan actually used by the renderer: computed plan, field-wise
override, then validation. -/
def mergePlan (A B : AnalysisSummary) (mode : MixMode) (o : PlanOverride) :
    TransitionPlan :=
  validatePlan (applyOverride (createTransitionPlan A B mode) o)

/-- `overlapStartA` of `mergeAudioFiles`:
`Math.max(0, Math.floor(plan.startBarA * 4 * beatDurationA * sampleRate))`. -/
def overlapStartA (p : TransitionPlan) (bpmA sampleRate : ℚ) : ℤ :=
  max 0 ⌊p.startBarA * 4 * (60 / bpmA) * sampleRate⌋

/-- `maxOverlap` of `mergeAudioFiles`: the overlap sample offset clamped by
the length of track A. -/
def maxOverlap (p : TransitionPlan) (bpmA sampleRate : ℚ) (lenA : ℕ) : ℤ :=
  min (overlapStartA p bpmA sampleRate) (lenA : ℤ)

/-! ## JavaScript numbers with IEEE special values (for FX parameters)

`fxProcessor.ts` receives effect times and durations that may be NaN or
±Infinity, and its guards test them with `isFinite`.  `JSQ` extends the
rationals by the three special values with the JavaScript semantics of the
operations the effects use on those parameters. -/

inductive JSQ
  | fin (q : ℚ)
  | inf
  | ninf
  | nan
deriving DecidableEq

namespace JSQ

/-- `isFinite`. -/
def isFinite : JSQ → Bool
  | fin _ => true
  | _ => false

/-- `<` (false whenever an operand is NaN). -/
def lt : JSQ → JSQ → Bool
  | fin a, fin b => a < b
  | fin _, inf => true
  | ninf, fin _ => true
  | ninf, inf => true
  | _, _ => false

/-- `<=` (false whenever an operand is NaN). -/
def le : JSQ → JSQ → Bool
  | fin a, fin b => a ≤ b
  | fin _, inf => true
  | ninf, fin _ => true
  | ninf, inf => true
  | inf, inf => true
  | ninf, ninf => true
  | _, _ => false

/-- Multiplication by a finite rational (the sample rate). -/
def mulQ : JSQ → ℚ → JSQ
  | fin a, q => fin (a * q)
  | inf, q => if 0 < q then inf else if q < 0 then ninf else nan
  | ninf, q => if 0 < q then ninf else if q < 0 then inf else nan
  | nan, _ => nan

/-- Multiplication of two JavaScript numbers (only the combinations the
effects reach). -/
def mul : JSQ → JSQ → JSQ
  | fin a, b => mulQ b a
  | a, fin b => mulQ a b
  | nan, _ => nan
  | _, nan => nan
  | inf, inf => inf
  | inf, ninf => ninf
  | ninf, inf => ninf
  | ninf, ninf => inf

/-- Addition of a finite rational and a JavaScript number. -/
def addQ (n : ℚ) : JSQ → JSQ
  | fin y => fin (n + y)
  | inf => inf
  | ninf => ninf
  | nan => nan

/-- Division of a finite rational by a JavaScript number (`x / 0` is a signed
infinity, `0 / 0` and `x / NaN` are NaN, `x / ±Infinity` is zero). -/
def divQ (x : ℚ) : JSQ → JSQ
  | fin y =>
    if y = 0 then (if x = 0 then nan else if 0 < x then inf else ninf) else fin (x / y)
  | inf => fin 0
  | ninf => fin 0
  | nan => nan

/-- `Math.floor`. -/
def floor : JSQ → JSQ
  | fin q => fin ⌊q⌋
  | inf => inf
  | ninf => ninf
  | nan => nan

/-- JavaScript `%`: remainder with the sign of the dividend; a zero or NaN
divisor yields NaN, an infinite divisor returns the finite dividend. -/
def rem : JSQ → JSQ → JSQ
  | fin a, fin b => if b = 0 then nan else fin (jsRem a b)
  | fin a, inf => fin a
  | fin a, ninf => fin a
  | _, _ => nan

/-- The trip count of `for (let i = 0; i < bound; i++)` for an
integer-valued floored bound: `none` when the loop never terminates
(`bound = Infinity`); a NaN or negative bound gives zero iterations. -/
def tripCount : JSQ → Option ℕ
  | fin q => some ⌊q⌋.toNat
  | inf => none
  | ninf => some 0
  | nan => some 0

end JSQ

/-! ## FX processor (fxProcessor.ts)

Writes to a `Float32Array` at an index outside `[0, length)` are ignored by
JavaScript; `setClamped` models exactly that.  `applyTapeStop` is not
embedded: no claim depends on its interior, and its resampling loop can read
out of range (producing NaN samples), which the rational sample model does
not represent. -/

/-- Write `v` at integer index `idx` when it is in range; otherwise the write
is ignored (typed-array semantics). -/
def setClamped (l : List ℚ) (idx : ℤ) (v : ℚ) : List ℚ :=
  if 0 ≤ idx ∧ idx < (l.length : ℤ) then l.set idx.toNat v else l

/-- `FXProcessor.applyNoiseSweep`.  `rand` is the ambient `Math.random`
stream, indexed by draw order: the source seeds nothing and draws
`durationSamples` values once, applying the same noise to every channel. -/
def applyNoiseSweep (rand : ℕ → ℚ) (buffer : JSBuffer ℚ) (startTime duration : JSQ) :
    JSBuffer ℚ :=
  if JSQ.lt startTime (.fin 0) ∨ JSQ.le duration (.fin 0) ∨
      ¬startTime.isFinite ∨ ¬duration.isFinite then buffer
  else
    match startTime, duration with
    | .fin s, .fin d =>
      let sr := buffer.sampleRate
      let startSample := (max 0 ⌊s * sr⌋).toNat
      let durationSamples := ⌊d * sr⌋.toNat
      let noise := fun i => (rand i * 2 - 1) * (3/10)
      { buffer with
        channels := buffer.channels.map fun ch =>
          (List.range durationSamples).foldl
            (fun data (i : ℕ) =>
              let gain := (i : ℚ) / durationSamples
              setClamped data ((startSample + i : ℕ) : ℤ)
                (data.getD (startSample + i) 0 + noise i * gain))
            ch }
    | _, _ => buffer

/-- `FXProcessor.applyReverseReverb`. -/
def applyReverseReverb (buffer : JSBuffer ℚ) (startTime duration : JSQ) : JSBuffer ℚ :=
  if JSQ.lt startTime (.fin 0) ∨ JSQ.le duration (.fin 0) ∨
      ¬startTime.isFinite ∨ ¬duration.isFinite then buffer
  else
    match startTime, duration with
    | .fin s, .fin d =>
      let sr := buffer.sampleRate
      let startSample := (max 0 ⌊s * sr⌋).toNat
      let durationSamples := ⌊d * sr⌋.toNat
      { buffer with
        channels := buffer.channels.map fun ch =>
          let reverb := fun (i : ℕ) =>
            if startSample + durationSamples - i < ch.length then
              ch.getD (startSample + durationSamples - i) 0 *
                (1 - (i : ℚ) / durationSamples) * (4/10)
            else 0
          (List.range durationSamples).foldl
            (fun data (i : ℕ) =>
              setClamped data ((startSample + i : ℕ) : ℤ)
                (data.getD (startSample + i) 0 + reverb i))
            ch }
    | _, _ => buffer

/-- One channel of the stutter effect: zero-initialized output, the input
copied up to `startSample`, `iters` stutter writes, and — only when the
stutter sample count is an actual number (not NaN, whose tail loop never
starts) — the input copied again from `startSample + iters` on.  A negative
floored count gives `iters = 0` with the tail copy starting at `startSample`,
which writes the same content as the JavaScript loop starting lower (ignored
negative writes plus values the prefix copy already wrote). -/
def stutterChannel (startSample iters : ℕ) (copyTail : Bool) (sliceSamplesJ : JSQ)
    (ch : List ℚ) : List ℚ :=
  let len := ch.length
  let pre := (List.range (min startSample len)).foldl
    (fun data (i : ℕ) => setClamped data (i : ℤ) (ch.getD i 0))
    (List.replicate len 0)
  let stuttered := (List.range iters).foldl
    (fun data (i : ℕ) =>
      let posInSlice := JSQ.rem (.fin (i : ℚ)) sliceSamplesJ
      let srcIdx := JSQ.addQ (startSample : ℚ) posInSlice
      if JSQ.lt srcIdx (.fin (len : ℚ)) then
        match srcIdx with
        | .fin q =>
          setClamped data ((startSample + i : ℕ) : ℤ) (ch.getD ⌊q⌋.toNat 0)
        | _ => data
      else data)
    pre
  if copyTail then
    (List.range (len - (startSample + iters))).foldl
      (fun data (k : ℕ) =>
        let i := startSample + iters + k
        setClamped data (i : ℤ) (ch.getD i 0))
      stuttered
  else stuttered

/-- `FXProcessor.applyStutter`.  The guard does not test `division` or `bars`
with `isFinite`.  `none` models non-termination: the stutter write loop when
`stutterSamples` is `Infinity` (e.g. `bars = Infinity`), and the tail copy
loop when it is `-Infinity`.  A NaN `stutterSamples` (e.g. `bars = NaN`) runs
neither the stutter loop nor the tail copy, leaving everything from
`startSample` on zeroed. -/
def applyStutter (buffer : JSBuffer ℚ) (startTime division bars bpm : JSQ) :
    Option (JSBuffer ℚ) :=
  if JSQ.lt startTime (.fin 0) ∨ JSQ.le division (.fin 0) ∨ JSQ.le bars (.fin 0) ∨
      JSQ.le bpm (.fin 0) ∨ ¬startTime.isFinite ∨ ¬bpm.isFinite then some buffer
  else
    match startTime, bpm with
    | .fin s, .fin p =>
      let sr := buffer.sampleRate
      let startSample := (max 0 ⌊s * sr⌋).toNat
      let beatDuration := 60 / p
      let stutterSamplesJ := (JSQ.mul (.fin (beatDuration * 4)) bars).mulQ sr |>.floor
      let sliceSamplesJ := (JSQ.divQ (beatDuration * 4) division).mulQ sr |>.floor
      match stutterSamplesJ with
      | .inf => none
      | .ninf => none
      | .nan =>
        some { buffer with
          channels := buffer.channels.map (stutterChannel startSample 0 false sliceSamplesJ) }
      | .fin z =>
        some { buffer with
          channels := buffer.channels.map
            (stutterChannel startSample ⌊z⌋.toNat true sliceSamplesJ) }
    | _, _ => some buffer

/-- `FXProcessor.applyEQMorph`: the amplitude-only morph.  It has NO
parameter guard; `none` models the non-terminating write loop reached when
`duration = Infinity` makes `durationSamples` infinite. -/
def applyEQMorph (bufferA bufferB : JSBuffer ℚ) (overlapStart duration : JSQ) :
    Option (JSBuffer ℚ × JSBuffer ℚ) :=
  let sr := bufferA.sampleRate
  let startSampleJ := (overlapStart.mulQ sr).floor
  let durationSamplesJ := (duration.mulQ sr).floor
  match durationSamplesJ.tripCount with
  | none => none
  | some durationSamples =>
    let ds := match durationSamplesJ with
      | .fin q => q
      | _ => 0
    let outA := { bufferA with
      channels := bufferA.channels.map fun ch =>
        (List.range durationSamples).foldl
          (fun data (i : ℕ) =>
            let idxJ := JSQ.addQ (i : ℚ) startSampleJ
            if JSQ.lt idxJ (.fin (ch.length : ℚ)) then
              match idxJ with
              | .fin q =>
                let progress := (i : ℚ) / ds
                setClamped data ⌊q⌋ (data.getD ⌊q⌋.toNat 0 * (1 - progress * (7/10)))
              | _ => data
            else data)
          ch }
    let outB := { bufferB with
      channels := bufferB.channels.map fun ch =>
        (List.range durationSamples).foldl
          (fun data (i : ℕ) =>
            if (i : ℚ) < (ch.length : ℚ) then
              let progress := (i : ℚ) / ds
              setClamped data (i : ℤ) (data.getD i 0 * (3/10 + progress * (7/10)))
            else data)
          ch }
    some (outA, outB)

/-! ## Mastering processor (masteringProcessor.ts): true-peak limiter

Generic in the sample type and in `Math.tanh` / `Math.pow(10, ·)` so that the
soft-clip bound can be proved at `ℝ` with `Real.tanh`. -/

/-- The 10-sample lookahead peak of `applyTruePeakLimiter`: the loop
`for (j = 1; j <= 10 && i + j < len; j++)` keeps the running maximum of
`|input[i+j]|`, starting from `|input[i]|`. -/
def lookaheadPeak {α : Type} [LinearOrderedField α] (input : List α) (i : ℕ) : α :=
  (List.range 10).foldl
    (fun m j => if i + j + 1 < input.length then max m |input.getD (i + j + 1) 0| else m)
    |input.getD i 0|

/-- One output sample of the limiter: lookahead gain reduction against the
linear ceiling, then the unconditional soft clip `tanh(x * 1.5) * 0.95`. -/
def limitSample {α : Type} [LinearOrderedField α] (tanhF : α → α) (ceilingLinear : α)
    (input : List α) (i : ℕ) : α :=
  let maxPeak := lookaheadPeak input i
  let sample := input.getD i 0
  let reduced := if ceilingLinear < maxPeak then sample * (ceilingLinear / maxPeak) else sample
  tanhF (reduced * (3/2)) * (19/20)

/-- `MasteringProcessor.applyTruePeakLimiter`; `pow10F` is
`Math.pow(10, ·)`, giving `ceilingLinear = 10^(ceiling/20)`. -/
def applyTruePeakLimiter {α : Type} [LinearOrderedField α] (tanhF pow10F : α → α)
    (buffer : JSBuffer α) (ceiling : α) : JSBuffer α :=
  let ceilingLinear := pow10F (ceiling / 20)
  { buffer with
    channels := buffer.channels.map fun ch =>
      (List.range ch.length).map (limitSample tanhF ceilingLinear ch) }

/-! ## Crossfade gain curves (audioProcessor.ts, mergeAudioFiles step 7)

Generic in `Math.cos` / `Math.sin` / `Math.PI`; the gain-law theorems
instantiate them at `ℝ`. -/

/-- The S-curve `x * x * (3 - 2 * x)` of the hard_downbeat branch. -/
def sCurve {α : Type} [LinearOrderedField α] (x : α) : α := x * x * (3 - 2 * x)

/-- `gainA` of the crossfade loop, by transition style. -/
def crossfadeGainA {α : Type} [LinearOrderedField α] (cosF : α → α) (piV : α)
    (style : TransitionStyle) (x : α) : α :=
  if style = .hard_downbeat then 1 - sCurve x
  else if style = .vocal_aware then 1 - x
  else cosF (x * piV * (1/2))

/-- `gainB` of the crossfade loop, by transition style. -/
def crossfadeGainB {α : Type} [LinearOrderedField α] (sinF : α → α) (piV : α)
    (style : TransitionStyle) (x : α) : α :=
  if style = .hard_downbeat then sCurve x
  else if style = .vocal_aware then x
  else sinF (x * piV * (1/2))

/-! ## WAV emission (audioProcessor.ts, bufferToWave) -/

/-- `DataView.setInt16` value conversion (ToInt16): truncate toward zero,
wrap modulo 2^16 into the signed 16-bit range. -/
def jsToInt16 (q : ℚ) : ℤ :=
  let m := jsTrunc q % 65536
  if 32768 ≤ m then m - 65536 else m

/-- Little-endian byte pair of a 16-bit write: the two bytes of the value
modulo 2^16. -/
def int16LE (v : ℤ) : List ℕ :=
  let u := (v % 65536).toNat
  [u % 256, u / 256]

/-- Little-endian bytes of `setUint32` (value wrapped modulo 2^32). -/
def uint32LE (q : ℚ) : List ℕ :=
  let u := (jsTrunc q % 4294967296).toNat
  [u % 256, u / 256 % 256, u / 65536 % 256, u / 16777216 % 256]

/-- Little-endian bytes of `setUint16`. -/
def uint16LE (q : ℚ) : List ℕ :=
  let u := (jsTrunc q % 65536).toNat
  [u % 256, u / 256]

/-- The encoded 16-bit value of one output sample: clamp to [-1, 1], scale by
0x8000 for negative and 0x7FFF otherwise, convert as `setInt16` does.  An
out-of-range channel read (`undefined`, hence NaN through the clamp) encodes
as 0. -/
def encodeSample : Option ℚ → ℤ
  | none => 0
  | some x =>
    let s := max (-1) (min 1 x)
    jsToInt16 (if s < 0 then s * 32768 else s * 32767)

/-- The 44-byte RIFF/WAVE header of `bufferToWave` (byte values of the four
ASCII tags written by `writeString`). -/
def wavHeader (numberOfChannels frames : ℕ) (sampleRate : ℚ) : List ℕ :=
  let dataLen := frames * numberOfChannels * 2
  [82, 73, 70, 70] ++ uint32LE (36 + dataLen) ++
  [87, 65, 86, 69] ++ [102, 109, 116, 32] ++
  uint32LE 16 ++ uint16LE 1 ++ uint16LE numberOfChannels ++
  uint32LE sampleRate ++ uint32LE (sampleRate * numberOfChannels * 2) ++
  uint16LE (numberOfChannels * 2) ++ uint16LE 16 ++
  [100, 97, 116, 97] ++ uint32LE dataLen

/-- The interleaved data section of `bufferToWave`: frames outermost,
channels innermost, two bytes per sample in write order (offset grows by 2
per sample starting at 44). -/
def wavData (buffer : JSBuffer ℚ) : List ℕ :=
  (List.range buffer.frames).flatMap fun i =>
    (List.range buffer.channels.length).flatMap fun c =>
      int16LE (encodeSample ((buffer.channels.getD c [])[i]?))

/-- The full byte content of the Blob produced by `bufferToWave`. -/
def wavBytes (buffer : JSBuffer ℚ) (sampleRate : ℚ) : List ℕ :=
  wavHeader buffer.channels.length buffer.frames sampleRate ++ wavData buffer

/-- `bufferToWave` itself: throws (`none`) on an empty buffer, a missing
channel or a non-positive sample rate, otherwise yields the bytes. -/
def bufferToWave (buffer : JSBuffer ℚ) (sampleRate : ℚ) : Option (List ℕ) :=
  if buffer.frames = 0 ∨ buffer.channels.length = 0 then none
  else if sampleRate ≤ 0 then none
  else if buffer.frames * buffer.channels.length * 2 = 0 then none
  else some (wavBytes buffer sampleRate)

/-! ## Auxiliary definitions for the statements -/

/-- The language of the Camelot regex `^(1[0-2]|[1-9])[AB]$`, decided
structurally: one nonzero digit, or `1` followed by `0`/`1`/`2`, then `A` or
`B`. -/
def matchesCamelotPattern (s : String) : Bool :=
  match s.toList with
  | [d, l] => d.isDigit ∧ d ≠ '0' ∧ (l = 'A' ∨ l = 'B')
  | [d1, d2, l] => d1 = '1' ∧ (d2 = '0' ∨ d2 = '1' ∨ d2 = '2') ∧ (l = 'A' ∨ l = 'B')
  | _ => false

/-- The camelot codes `analyzeTrack` can actually emit: the twelve major
(B-suffixed) codes at table indices 0–11, plus the catch-arm fallback. -/
def reachableCamelot : List String :=
  ["8B", "3B", "10B", "5B", "12B", "7B", "2B", "9B", "4B", "11B", "6B", "1B", "1A"]

/-- A concrete instantiation of the abstracted `Math.*` functions, used for
evaluating the embedding on inputs whose behaviour does not depend on them. -/
def mathFnsZero : MathFns := ⟨fun _ => 0, fun _ => 0, fun _ => 0, fun _ => 0, 0⟩

/-! ## Helper lemmas -/

/-- A fold whose step preserves list length preserves it overall. -/
theorem foldl_length_eq {β : Type} (f : List ℚ → β → List ℚ)
    (h : ∀ c b, (f c b).length = c.length) :
    ∀ (l : List β) (c : List ℚ), (l.foldl f c).length = c.length := by
  intro l
  induction l with
  | nil => intro c; rfl
  | cons b t ih => intro c; rw [List.foldl_cons, ih, h]

/-- `jsListMax` of a nonempty list is one of its elements. -/
theorem jsListMax_mem : ∀ (l : List ℚ), l ≠ [] → jsListMax l ∈ l := by
  have key : ∀ (t : List ℚ) (h : ℚ), t.foldl max h ∈ h :: t := by
    intro t
    induction t with
    | nil => intro h; simp
    | cons b t ih =>
      intro h
      rw [List.foldl_cons]
      have hmem := ih (max h b)
      rw [List.mem_cons] at hmem
      rcases hmem with hh | hh
      · rcases max_choice h b with hm | hm
        · rw [hh, hm]; exact List.mem_cons_self _ _
        · rw [hh, hm]; exact List.mem_cons_of_mem _ (List.mem_cons_self _ _)
      · exact List.mem_cons_of_mem _ (List.mem_cons_of_mem _ hh)
  intro l hl
  match l, hl with
  | h :: t, _ => exact key t h

/-- `chromaAccum` preserves the chromagram length. -/
theorem chromaAccum_length (sr : ℚ) (M : MathFns) (c s : List ℚ) :
    (chromaAccum sr M c s).length = c.length := by
  unfold chromaAccum
  refine foldl_length_eq _ ?_ _ c
  intro c j
  dsimp only
  split
  · rfl
  · split
    · exact List.length_set ..
    · rfl

/-- The key `detectKey` reports is always one of the twelve chromagram bins. -/
theorem detectKey_key_lt (M : MathFns) (b : JSBuffer ℚ) : (detectKey M b).key < 12 := by
  unfold detectKey
  split
  · exact Nat.lt_of_sub_eq_succ rfl
  · dsimp only
    split
    · exact Nat.lt_of_sub_eq_succ rfl
    · rename_i hmax
      set chrom := (hopStarts b.chan0.length 4096 4096).foldl
        (fun c i => chromaAccum b.sampleRate M c (fft M (jsSlice b.chan0 i 4096)))
        (List.replicate 12 0) with hchrom
      have hlen : chrom.length = 12 := by
        rw [hchrom]
        rw [foldl_length_eq _ (fun c i => chromaAccum_length b.sampleRate M c _) _ _]
        exact List.length_replicate ..
      have hne : chrom ≠ [] := by
        intro h
        rw [h] at hlen
        exact absurd hlen (by decide)
      have := List.indexOf_lt_length.2 (jsListMax_mem chrom hne)
      dsimp only
      rw [hlen] at this
      exact this

/-- The real hyperbolic tangent is strictly inside (-1, 1). -/
theorem real_tanh_abs_lt_one (x : ℝ) : |Real.tanh x| < 1 := by
  rw [Real.tanh_eq_sinh_div_cosh, abs_div, abs_of_pos (Real.cosh_pos x),
    div_lt_one (Real.cosh_pos x), abs_lt]
  constructor
  · have h := Real.sinh_lt_cosh (-x)
    rw [Real.sinh_neg, Real.cosh_neg] at h
    linarith
  · exact Real.sinh_lt_cosh x

unseal Rat.mul Rat.add Rat.sub Rat.inv in
/-- The shape `calculateBPM` always gives its result: `bpm` clamped into
[60, 200] and `bpmAlt` derived by the halve-if-fast / double-otherwise rule. -/
theorem calculateBPM_spec (beats : List ℚ) (sr : ℚ) :
    60 ≤ (calculateBPM beats sr).bpm ∧ (calculateBPM beats sr).bpm ≤ 200 ∧
    (calculateBPM beats sr).bpmAlt =
      (if 100 < (calculateBPM beats sr).bpm then (jsRound ((calculateBPM beats sr).bpm / 2) : ℚ)
       else (calculateBPM beats sr).bpm * 2) := by
  have hfallback :
      (60 : ℚ) ≤ 120 ∧ (120 : ℚ) ≤ 200 ∧
        (60 : ℚ) = (if (100 : ℚ) < 120 then (jsRound ((120 : ℚ) / 2) : ℚ) else (120 : ℚ) * 2) := by
    refine ⟨by norm_num, by norm_num, ?_⟩
    rw [if_pos (by norm_num)]
    decide
  unfold calculateBPM
  split
  · exact hfallback
  · dsimp only
    split
    · exact hfallback
    · split
      · exact hfallback
      · dsimp only
        refine ⟨?_, ?_, ?_⟩
        · exact_mod_cast le_max_left ..
        · exact_mod_cast max_le (by norm_num) (min_le_left ..)
        · split_ifs with h1 h2 h2
          · rfl
          · exact absurd (by exact_mod_cast h1) h2
          · exact absurd (by exact_mod_cast h2) h1
          · rfl

/-! ## Claim theorems -/

unseal Rat.mul Rat.add Rat.sub Rat.inv in
/-- C8: for every input (and every instantiation of the abstracted library
functions), the analyzer bpm lies in [60, 200], its camelot code matches
the pattern (1[0-2]|[1-9])[AB], and bpmAlt is the rounded half of bpm when
bpm exceeds 100 and the double of bpm otherwise. -/
theorem analyzeTrack_bpm_camelot_invariants (M : MathFns) (b : JSBuffer ℚ) :
    60 ≤ (analyzeTrack M b).bpm ∧ (analyzeTrack M b).bpm ≤ 200 ∧
    matchesCamelotPattern (analyzeTrack M b).camelot = true ∧
    (analyzeTrack M b).bpmAlt =
      (if 100 < (analyzeTrack M b).bpm then (jsRound ((analyzeTrack M b).bpm / 2) : ℚ)
       else (analyzeTrack M b).bpm * 2) := by
  have hpat : ∀ k, k < 12 → matchesCamelotPattern (keyToCamelot k) = true := by decide
  unfold analyzeTrack
  split
  · exact ⟨by decide, by decide, by decide, by decide⟩
  · dsimp only
    obtain ⟨h1, h2, h3⟩ := calculateBPM_spec (detectBeats M b.chan0 b.sampleRate) b.sampleRate
    exact ⟨h1, h2, hpat _ (detectKey_key_lt M b), h3⟩

/-- C10: the camelot code `analyzeTrack` emits is always either the fallback
"1A" or one of the twelve B-suffixed codes at indices 0-11 of the key table;
the minor-mode entries 12-23 are unreachable because the detected key is the
index of a 12-bin chromagram. -/
theorem analyzeTrack_camelot_reachable (M : MathFns) (b : JSBuffer ℚ) :
    (analyzeTrack M b).camelot ∈ reachableCamelot := by
  have hkey : ∀ k, k < 12 → keyToCamelot k ∈ reachableCamelot := by decide
  unfold analyzeTrack
  split
  · decide
  · dsimp only
    exact hkey _ (detectKey_key_lt M b)

unseal Rat.mul Rat.add Rat.sub Rat.inv in
/-- C1 (amended): the analyzer is total.  On an invalid buffer (no frames, no
channel data, or non-positive sample rate) it returns the full fallback
summary, whose camelot is "1A".  On a valid but degenerate buffer shorter
than one analysis frame (2048 samples) it still produces bpm 120 and the
synthetic beat grid [0, 0.5, 1, 1.5], but its camelot is "8B" — the key
detector defaults to pitch class 0, which the table maps to "8B", and the
"1A" fallback of the catch arm is not reached. -/
theorem analyzeTrack_total_and_fallback (M : MathFns) (b : JSBuffer ℚ) :
    ((b.frames = 0 ∨ b.sampleRate ≤ 0 ∨ b.chan0 = []) → analyzeTrack M b = fallbackSummary) ∧
    (¬(b.frames = 0 ∨ b.sampleRate ≤ 0 ∨ b.chan0 = []) → b.chan0.length < 2048 →
      (analyzeTrack M b).bpm = 120 ∧
      (analyzeTrack M b).beatTimes = [0, 1/2, 1, 3/2] ∧
      (analyzeTrack M b).camelot = "8B") := by
  constructor
  · intro h
    unfold analyzeTrack
    rw [if_pos h]
  · intro h hlen
    have hbeats : detectBeats M b.chan0 b.sampleRate = [0, 1/2, 1, 3/2] := by
      unfold detectBeats
      rw [if_pos (Or.inl hlen)]
    have hcal : calculateBPM [0, 1/2, 1, 3/2] b.sampleRate =
        calculateBPM [0, 1/2, 1, 3/2] 0 := rfl
    have hcal0 : calculateBPM [0, 1/2, 1, 3/2] 0 = ⟨120, 60, 1⟩ := by decide
    have hkey : detectKey M b = ⟨0, 0⟩ := by
      unfold detectKey
      split
      · rfl
      · dsimp only
        have hhops : hopStarts b.chan0.length 4096 4096 = [] := by
          unfold hopStarts
          have : b.chan0.length - 4096 = 0 := Nat.sub_eq_zero_of_le (by omega)
          rw [this]
          rfl
        rw [hhops, List.foldl_nil]
        rw [if_pos (by decide)]
    unfold analyzeTrack
    rw [if_neg h]
    dsimp only
    rw [hbeats, hcal, hcal0, hkey]
    exact ⟨rfl, rfl, rfl⟩

unseal Rat.mul Rat.add Rat.sub Rat.inv in
/-- C1 (counterexample): a one-sample silent buffer at 44100 Hz is a valid
input that takes every degenerate-analysis path (synthetic beat grid, bpm
120), yet `analyzeTrack` reports camelot "8B", not the fallback "1A" the
claim requires for degenerate input. -/
theorem analyzeTrack_degenerate_camelot_not_fallback :
    (analyzeTrack mathFnsZero ⟨44100, [[0]]⟩).bpm = 120 ∧
    (analyzeTrack mathFnsZero ⟨44100, [[0]]⟩).beatTimes = [0, 1/2, 1, 3/2] ∧
    (analyzeTrack mathFnsZero ⟨44100, [[0]]⟩).camelot = "8B" ∧
    (analyzeTrack mathFnsZero ⟨44100, [[0]]⟩).camelot ≠ "1A" := by
  refine ⟨by decide, by decide, by decide, by decide⟩

unseal Rat.mul Rat.add Rat.sub Rat.inv in
/-- Witness for `analyzeTrack_total_and_fallback`, at a channel-less buffer
(invalid arm) and the one-sample silent buffer (degenerate arm). -/
theorem analyzeTrack_total_and_fallback_witness :
    analyzeTrack mathFnsZero ⟨44100, ([] : List (List ℚ))⟩ = fallbackSummary ∧
    ((analyzeTrack mathFnsZero ⟨44100, [[0]]⟩).bpm = 120 ∧
     (analyzeTrack mathFnsZero ⟨44100, [[0]]⟩).beatTimes = [0, 1/2, 1, 3/2] ∧
     (analyzeTrack mathFnsZero ⟨44100, [[0]]⟩).camelot = "8B") :=
  ⟨(analyzeTrack_total_and_fallback mathFnsZero ⟨44100, []⟩).1 (by decide),
   (analyzeTrack_total_and_fallback mathFnsZero ⟨44100, [[0]]⟩).2 (by decide) (by decide)⟩

/-- C7: whenever the tracks are not both vocal, the keys are compatible and
the tempo delta is below 0.02, the planner picks eq_morph with 16 bars in
club_smooth mode and 8 otherwise.  The positivity hypothesis on `bpm_a`
restricts the statement to genuine analysis summaries (the analyzer always
reports `bpm ≥ 60`); at `bpm_a = 0` the JavaScript `tempoDelta` is NaN and
takes the final branch, while rational division would make it 0. -/
theorem createTransitionPlan_eq_morph_rule (A B : AnalysisSummary) (mode : MixMode)
    (hbpm : 0 < A.bpm) (hv : ¬bothVocal A B)
    (hk : areKeysCompatible A.camelot B.camelot = true)
    (hd : tempoDelta A B < 2/100) :
    (createTransitionPlan A B mode).style = .eq_morph ∧
    (createTransitionPlan A B mode).lengthBars = (if mode = .club_smooth then 16 else 8) := by
  unfold createTransitionPlan
  dsimp only
  rw [if_neg hv, if_neg (fun h => h.1 hk), if_pos ⟨hk, hd⟩]
  exact ⟨rfl, rfl⟩

unseal Rat.mul Rat.add Rat.sub Rat.inv in
/-- Witness for `createTransitionPlan_eq_morph_rule`: two fallback analyses
(bpm 120, camelot "1A", vocal likelihood 0.3) in neutral mode. -/
theorem createTransitionPlan_eq_morph_rule_witness :
    (createTransitionPlan fallbackSummary fallbackSummary .neutral).style = .eq_morph ∧
    (createTransitionPlan fallbackSummary fallbackSummary .neutral).lengthBars = 8 := by
  have h := createTransitionPlan_eq_morph_rule fallbackSummary fallbackSummary .neutral
    (by decide) (by decide) (by decide) (by decide)
  exact ⟨h.1, by rw [h.2]; rfl⟩

unseal Rat.mul Rat.add Rat.sub Rat.inv in
/-- C4 (counterexample): with a plan override `start_bar_a = 1000` on
fallback analyses (track A has 1 bar), the renderer uses `start_bar_a = 1000`
unchanged — nothing clamps it below the number of bars in A. -/
theorem mergePlan_startBarA_exceeds_bars :
    (mergePlan fallbackSummary fallbackSummary .neutral
      { startBarA := some 1000 }).startBarA = 1000 ∧
    totalBars fallbackSummary = 1 ∧
    ¬((mergePlan fallbackSummary fallbackSummary .neutral
      { startBarA := some 1000 }).startBarA < (totalBars fallbackSummary : ℚ)) :=
  ⟨by decide, by decide, by decide⟩

/-- C4 (amended): the renderer clamps `start_bar_a` from below only — the
value used is `max 0` of the (possibly overridden) plan value, with no upper
clamp at `bars_in_A`; what is clamped by the track-A length is the derived
overlap sample offset `maxOverlap`, which always lies in `[0, len(A)]`. -/
theorem mergePlan_lower_clamp_and_overlap_bounds :
    (∀ (p : TransitionPlan) (o : PlanOverride),
      (validatePlan (applyOverride p o)).startBarA = max 0 (o.startBarA.getD p.startBarA)) ∧
    (∀ (p : TransitionPlan) (bpmA sr : ℚ) (lenA : ℕ),
      0 ≤ maxOverlap p bpmA sr lenA ∧ maxOverlap p bpmA sr lenA ≤ (lenA : ℤ)) := by
  constructor
  · intro p o
    unfold validatePlan applyOverride
    dsimp only
    split
    · rename_i hneg
      exact (max_eq_left (le_of_lt hneg)).symm
    · rename_i hpos
      push_neg at hpos
      exact (max_eq_right hpos).symm
  · intro p bpmA sr lenA
    unfold maxOverlap overlapStartA
    exact ⟨le_min (le_max_left ..) (Int.natCast_nonneg ..), min_le_right ..⟩

unseal Rat.mul Rat.add Rat.sub Rat.inv in
/-- C3: `applyStutter` does not test `division` with `isFinite`; with a NaN
division every stutter-region write is skipped against a zero-initialized
output, so a buffer of ones comes back zeroed instead of unchanged. -/
theorem applyStutter_invalid_division_not_rejected :
    applyStutter ⟨1, [[1, 1]]⟩ (.fin 0) .nan (.fin 1) (.fin 120) = some ⟨1, [[0, 0]]⟩ ∧
    (⟨1, [[0, 0]]⟩ : JSBuffer ℚ) ≠ ⟨1, [[1, 1]]⟩ :=
  ⟨by decide, by decide⟩

/-- `applyEQMorph` has no parameter guard at all: an infinite duration makes
its write loop non-terminating (modelled as `none`) instead of returning the
input unchanged. -/
theorem applyEQMorph_infinite_duration_diverges :
    applyEQMorph ⟨1, [[1]]⟩ ⟨1, [[1]]⟩ (.fin 0) .inf = none := rfl

unseal Rat.mul Rat.add Rat.sub Rat.inv in
/-- C5: the noise sweep draws from the ambient unseeded `Math.random`
stream; two runs on the same buffer whose ambient draws differ (all 1.0
versus all 0.5) produce different output audio, so rendering is not
deterministic in the inputs alone. -/
theorem applyNoiseSweep_ambient_random_nondeterministic :
    applyNoiseSweep (fun _ => 1) ⟨1, [[0, 0, 0, 0]]⟩ (.fin 0) (.fin 4) ≠
      applyNoiseSweep (fun _ => 1/2) ⟨1, [[0, 0, 0, 0]]⟩ (.fin 0) (.fin 4) := by
  decide

/-- C2: every sample of the buffer returned by the true-peak limiter has
absolute value strictly below 0.95, for every ceiling and every `Math.pow`
behaviour, because the soft clip `tanh(x * 1.5) * 0.95` is applied
unconditionally to every output sample and `|tanh| < 1`. -/
theorem applyTruePeakLimiter_soft_clip_bound (pow10F : ℝ → ℝ) (ceiling : ℝ)
    (buffer : JSBuffer ℝ) (ch : List ℝ)
    (hch : ch ∈ (applyTruePeakLimiter Real.tanh pow10F buffer ceiling).channels)
    (y : ℝ) (hy : y ∈ ch) : |y| < 0.95 := by
  unfold applyTruePeakLimiter at hch
  dsimp only at hch
  rw [List.mem_map] at hch
  obtain ⟨src, hsrc, rfl⟩ := hch
  rw [List.mem_map] at hy
  obtain ⟨i, hi, rfl⟩ := hy
  unfold limitSample
  dsimp only
  rw [abs_mul, show |(19/20 : ℝ)| = 19/20 by norm_num]
  calc |Real.tanh _| * (19/20) < 1 * (19/20) :=
        mul_lt_mul_of_pos_right (real_tanh_abs_lt_one _) (by norm_num)
    _ = 0.95 := by norm_num

/-- Witness for `applyTruePeakLimiter_soft_clip_bound`: the single sample of
a one-sample silent buffer limited at the default -1 dBTP ceiling. -/
theorem applyTruePeakLimiter_soft_clip_bound_witness :
    |(applyTruePeakLimiter Real.tanh (fun x => (10:ℝ) ^ x)
        ⟨48000, [[0]]⟩ (-1)).channels.headI.headI| < 0.95 := by
  exact applyTruePeakLimiter_soft_clip_bound (fun x => (10:ℝ) ^ x) (-1) ⟨48000, [[0]]⟩
    _ (List.mem_singleton_self _) _ (List.mem_singleton_self _)

/-- C6: the crossfade gain laws.  For hard_downbeat (S-curve), the two gains
sum to 1 at x = 0, 1/2, 1; for every style other than hard_downbeat and
vocal_aware, the equal-power cos/sin gains satisfy
`gain_a(x)^2 + gain_b(x)^2 = 1` on [0, 1]. -/
theorem crossfade_gain_laws :
    (∀ x : ℝ, x = 0 ∨ x = 1/2 ∨ x = 1 →
      crossfadeGainA Real.cos Real.pi .hard_downbeat x +
        crossfadeGainB Real.sin Real.pi .hard_downbeat x = 1) ∧
    (∀ st : TransitionStyle, st ≠ .hard_downbeat → st ≠ .vocal_aware →
      ∀ x : ℝ, 0 ≤ x → x ≤ 1 →
        crossfadeGainA Real.cos Real.pi st x ^ 2 +
          crossfadeGainB Real.sin Real.pi st x ^ 2 = 1) := by
  constructor
  · intro x _
    unfold crossfadeGainA crossfadeGainB sCurve
    rw [if_pos rfl, if_pos rfl]
    ring
  · intro st h1 h2 x _ _
    cases st with
    | hard_downbeat => exact absurd rfl h1
    | vocal_aware => exact absurd rfl h2
    | eq_morph =>
      unfold crossfadeGainA crossfadeGainB
      rw [if_neg (by decide), if_neg (by decide), if_neg (by decide), if_neg (by decide)]
      exact Real.cos_sq_add_sin_sq _
    | bass_swap =>
      unfold crossfadeGainA crossfadeGainB
      rw [if_neg (by decide), if_neg (by decide), if_neg (by decide), if_neg (by decide)]
      exact Real.cos_sq_add_sin_sq _
    | stutter_entry =>
      unfold crossfadeGainA crossfadeGainB
      rw [if_neg (by decide), if_neg (by decide), if_neg (by decide), if_neg (by decide)]
      exact Real.cos_sq_add_sin_sq _

/-- Witness for `crossfade_gain_laws`: both laws evaluated at the fade
midpoint, the second for the eq_morph style. -/
theorem crossfade_gain_laws_witness :
    crossfadeGainA Real.cos Real.pi .hard_downbeat (1/2) +
      crossfadeGainB Real.sin Real.pi .hard_downbeat (1/2) = 1 ∧
    crossfadeGainA Real.cos Real.pi .eq_morph (1/2) ^ 2 +
      crossfadeGainB Real.sin Real.pi .eq_morph (1/2) ^ 2 = 1 :=
  ⟨crossfade_gain_laws.1 (1/2) (Or.inr (Or.inl rfl)),
   crossfade_gain_laws.2 .eq_morph (by decide) (by decide) (1/2) (by norm_num) (by norm_num)⟩

/-- Length of a flatMap over `List.range` with constant block length. -/
theorem flatMap_range_const_length {α : Type} (f : ℕ → List α) (k : ℕ)
    (hf : ∀ m, (f m).length = k) (n : ℕ) :
    ((List.range n).flatMap f).length = n * k := by
  induction n with
  | zero => simp
  | succ n ih =>
    rw [List.range_succ, List.flatMap_append, List.length_append, ih]
    have : (([n] : List ℕ).flatMap f).length = k := by simp [hf]
    rw [this, Nat.succ_mul]

/-- Indexing into a flatMap over `List.range` with constant block length. -/
theorem flatMap_range_const_getElem {α : Type} (f : ℕ → List α) (k : ℕ)
    (hf : ∀ m, (f m).length = k) (n i j : ℕ) (hi : i < n) (hj : j < k) :
    ((List.range n).flatMap f)[k * i + j]? = (f i)[j]? := by
  induction n with
  | zero => omega
  | succ n ih =>
    rw [List.range_succ, List.flatMap_append]
    rcases Nat.lt_succ_iff_lt_or_eq.mp hi with h | h
    · rw [List.getElem?_append_left]
      · exact ih h
      · rw [flatMap_range_const_length f k hf n]
        have h1 : k * i + j < k * (i + 1) := by rw [Nat.mul_succ]; omega
        have h2 : k * (i + 1) ≤ k * n := Nat.mul_le_mul_left k (by omega)
        rw [Nat.mul_comm n k]
        exact lt_of_lt_of_le h1 h2
    · subst h
      rw [List.getElem?_append_right]
      · rw [flatMap_range_const_length f k hf i]
        have hidx : k * i + j - i * k = j := by rw [Nat.mul_comm]; omega
        rw [hidx]
        simp
      · rw [flatMap_range_const_length f k hf i, Nat.mul_comm]
        omega

/-- `setInt16` stores the truncated value itself whenever it already fits in
the signed 16-bit range (no wraparound). -/
theorem jsToInt16_eq_of_range (q : ℚ) (h1 : -32768 ≤ jsTrunc q) (h2 : jsTrunc q ≤ 32767) :
    jsToInt16 q = jsTrunc q := by
  unfold jsToInt16
  dsimp only
  split <;> omega

/-- The encoded sample value is the truncation of the clamp-then-scale
formula and lies in the signed 16-bit range. -/
theorem encodeSample_spec (q : ℚ) :
    encodeSample (some q) =
      jsTrunc (if max (-1) (min 1 q) < 0 then max (-1) (min 1 q) * 32768
               else max (-1) (min 1 q) * 32767) ∧
    -32768 ≤ encodeSample (some q) ∧ encodeSample (some q) ≤ 32767 := by
  have hs1 : (-1 : ℚ) ≤ max (-1) (min 1 q) := le_max_left ..
  have hs2 : max (-1) (min 1 q) ≤ 1 := max_le (by norm_num) (min_le_left ..)
  set s := max (-1) (min 1 q) with hs
  have hfloor : ∀ r : ℚ, r ≤ 32768 → ⌊r⌋ ≤ 32768 := by
    intro r hr
    calc ⌊r⌋ ≤ ⌊(32768 : ℚ)⌋ := Int.floor_le_floor hr
      _ = 32768 := by
          rw [show (32768 : ℚ) = ((32768 : ℤ) : ℚ) by norm_num, Int.floor_intCast]
  have hfloor2 : ∀ r : ℚ, r ≤ 32767 → ⌊r⌋ ≤ 32767 := by
    intro r hr
    calc ⌊r⌋ ≤ ⌊(32767 : ℚ)⌋ := Int.floor_le_floor hr
      _ = 32767 := by
          rw [show (32767 : ℚ) = ((32767 : ℤ) : ℚ) by norm_num, Int.floor_intCast]
  have hrange : -32768 ≤ jsTrunc (if s < 0 then s * 32768 else s * 32767) ∧
      jsTrunc (if s < 0 then s * 32768 else s * 32767) ≤ 32767 := by
    split
    · rename_i hneg
      have hv2 : ¬(0 : ℚ) ≤ s * 32768 := by nlinarith
      unfold jsTrunc
      rw [if_neg hv2]
      constructor
      · have : ⌊-(s * 32768)⌋ ≤ 32768 := hfloor _ (by nlinarith)
        omega
      · have : (0 : ℤ) ≤ ⌊-(s * 32768)⌋ := Int.floor_nonneg.mpr (by nlinarith)
        omega
    · rename_i hpos
      push_neg at hpos
      have hv1 : (0 : ℚ) ≤ s * 32767 := by nlinarith
      unfold jsTrunc
      rw [if_pos hv1]
      constructor
      · have : (0 : ℤ) ≤ ⌊s * 32767⌋ := Int.floor_nonneg.mpr hv1
        omega
      · exact hfloor2 _ (by nlinarith)
  refine ⟨?_, ?_, ?_⟩
  · show jsToInt16 _ = _
    exact jsToInt16_eq_of_range _ hrange.1 hrange.2
  · show -32768 ≤ jsToInt16 _
    rw [jsToInt16_eq_of_range _ hrange.1 hrange.2]
    exact hrange.1
  · show jsToInt16 _ ≤ 32767
    rw [jsToInt16_eq_of_range _ hrange.1 hrange.2]
    exact hrange.2

/-- C9: in WAV emission, the byte pair of frame `i`, channel `c` sits at
offset `44 + 2*(i*channels + c)` (little-endian, channels interleaved per
frame) and stores the 16-bit value obtained by clamping the sample to
[-1, 1] and scaling by 0x8000 when negative and 0x7FFF otherwise; the value
fits the signed 16-bit range, so no wraparound occurs. -/
theorem bufferToWave_sample_encoding (b : JSBuffer ℚ) (sr : ℚ) (c i : ℕ)
    (hc : c < b.channels.length) (hi : i < b.frames) (hsr : 0 < sr) :
    bufferToWave b sr = some (wavBytes b sr) ∧
    (wavBytes b sr)[44 + 2 * (i * b.channels.length + c)]? =
      some ((encodeSample ((b.channels.getD c [])[i]?) % 65536).toNat % 256) ∧
    (wavBytes b sr)[44 + (2 * (i * b.channels.length + c) + 1)]? =
      some ((encodeSample ((b.channels.getD c [])[i]?) % 65536).toNat / 256) ∧
    (∀ q, (b.channels.getD c [])[i]? = some q →
      encodeSample (some q) =
        jsTrunc (if max (-1) (min 1 q) < 0 then max (-1) (min 1 q) * 32768
                 else max (-1) (min 1 q) * 32767) ∧
      -32768 ≤ encodeSample (some q) ∧ encodeSample (some q) ≤ 32767) := by
  have hhead : (wavHeader b.channels.length b.frames sr).length = 44 := rfl
  have houter := fun (j : ℕ) (hj : j < b.channels.length * 2) =>
    flatMap_range_const_getElem
      (fun i => (List.range b.channels.length).flatMap
        (fun c => int16LE (encodeSample ((b.channels.getD c [])[i]?))))
      (b.channels.length * 2)
      (fun m => flatMap_range_const_length
        (fun c => int16LE (encodeSample ((b.channels.getD c [])[m]?))) 2 (fun _ => rfl) _)
      b.frames i j hi hj
  have hinner := fun (j : ℕ) (hj : j < 2) =>
    flatMap_range_const_getElem
      (fun c => int16LE (encodeSample ((b.channels.getD c [])[i]?)))
      2 (fun _ => rfl) b.channels.length c j hc hj
  have hdata0 : (wavData b)[2 * (i * b.channels.length + c)]? =
      some ((encodeSample ((b.channels.getD c [])[i]?) % 65536).toNat % 256) := by
    unfold wavData
    rw [show 2 * (i * b.channels.length + c) =
        b.channels.length * 2 * i + (2 * c + 0) by ring]
    rw [houter (2 * c + 0) (by omega), hinner 0 (by omega)]
    rfl
  have hdata1 : (wavData b)[2 * (i * b.channels.length + c) + 1]? =
      some ((encodeSample ((b.channels.getD c [])[i]?) % 65536).toNat / 256) := by
    unfold wavData
    rw [show 2 * (i * b.channels.length + c) + 1 =
        b.channels.length * 2 * i + (2 * c + 1) by ring]
    rw [houter (2 * c + 1) (by omega), hinner 1 (by omega)]
    rfl
  refine ⟨?_, ?_, ?_, ?_⟩
  · unfold bufferToWave
    rw [if_neg (by omega), if_neg (not_le.mpr hsr),
      if_neg (Nat.mul_ne_zero (Nat.mul_ne_zero (by omega) (by omega)) (by omega))]
  · unfold wavBytes
    rw [List.getElem?_append_right (by rw [hhead]; omega), hhead]
    rw [show 44 + 2 * (i * b.channels.length + c) - 44 =
        2 * (i * b.channels.length + c) by omega]
    exact hdata0
  · unfold wavBytes
    rw [List.getElem?_append_right (by rw [hhead]; omega), hhead]
    rw [show 44 + (2 * (i * b.channels.length + c) + 1) - 44 =
        2 * (i * b.channels.length + c) + 1 by omega]
    exact hdata1
  · intro q _
    exact encodeSample_spec q

unseal Rat.mul Rat.add Rat.sub Rat.inv in
/-- Witness for `bufferToWave_sample_encoding`: a one-frame mono buffer with
sample 1/2 encodes as 0x3FFF little-endian at offset 44. -/
theorem bufferToWave_sample_encoding_witness :
    bufferToWave ⟨1, [[1/2]]⟩ 1 = some (wavBytes ⟨1, [[1/2]]⟩ 1) ∧
    (wavBytes ⟨1, [[1/2]]⟩ 1)[44]? = some 255 ∧
    (wavBytes ⟨1, [[1/2]]⟩ 1)[45]? = some 63 := by
  have h := bufferToWave_sample_encoding ⟨1, [[1/2]]⟩ 1 0 0 (by decide) (by decide)
    (by decide)
  refine ⟨h.1, ?_, ?_⟩
  · have h2 := h.2.1
    norm_num at h2
    rw [h2]
    decide
  · have h3 := h.2.2.1
    norm_num at h3
    rw [h3]
    decide
